import Mathlib

/-!
Shallow embedding of the slm command-line client and proofs about its
observable behaviour.  The repository holds two near-identical variants:
slm-linux.go (functions parseFlags, ensureHistDir, loadHist, appendHist,
sendChat) and slm.go, the 9front port (parseflags, ensurehistdir,
loadhist, appendhist, sendchat).  Both are embedded here; the Linux
variant keeps camelCase names, the 9front variant lower-case or a `9`
suffix where names would clash.

Conventions of the embedding:
* HTTP response bodies are modelled at the JSON level as `Option Json`,
  where `none` stands for a body that is not valid JSON; the textual
  encoding of JSON is external to the model.
* The decode functions model encoding/json unmarshalling into the struct
  types declared in the sources: unknown fields are ignored, missing
  fields keep their zero value, a later duplicate key wins, a type
  mismatch is a decode failure, decoding `null` keeps the zero value.
  Field names are matched exactly (all tags in the sources are lower
  case, as are the keys of the bodies considered here).
* The ndb history library (github.com/mischief/ndb) is not part of this
  repository; the spec treats the history store as an external
  attribute-value record format.  It is modelled at the record level: a
  record is the ordered list of its attribute-value tuples, a database
  the ordered list of its records, and the textual quoting layer is
  taken to be lossless as the spec states.
* Process effects (stdout, exit status, the MkdirAll attempt, history
  reads and writes, the single HTTP request) are recorded in an
  `Outcome` structure; the nondeterministic environment (filesystem
  results, the remote response) is an explicit `World` argument.
-/

namespace Slm

/-- A chat message: role plus content (type Message in both variants). -/
structure Message where
  role : String
  content : String
  deriving DecidableEq, Repr

/-- One candidate reply (type Choice in both variants). -/
structure Choice where
  message : Message
  deriving DecidableEq, Repr

/-- The request payload (type ChatRequest in both variants). -/
structure ChatRequest where
  model : String
  temperature : Float
  messages : List Message

/-- JSON values, used to model response bodies. -/
inductive Json where
  | null
  | bool (b : Bool)
  | num (n : Int)
  | str (s : String)
  | arr (elems : List Json)
  | obj (fields : List (String × Json))

/-- Last binding of a key in a JSON object, mirroring encoding/json
where a later duplicate key overwrites an earlier one. -/
def lookupLast (fields : List (String × Json)) (key : String) : Option Json :=
  fields.foldl (fun acc f => if f.1 = key then some f.2 else acc) none

/-- Decode a JSON field into a Go string field: absent or null keeps the
zero value "", a string is taken verbatim, anything else is a type
mismatch. -/
def decodeStringField : Option Json → Option String
  | none => some ""
  | some .null => some ""
  | some (.str s) => some s
  | some _ => none

/-- Unmarshal a JSON value into Message. -/
def decodeMessage : Json → Option Message
  | .null => some ⟨"", ""⟩
  | .obj fs => do
      let role ← decodeStringField (lookupLast fs "role")
      let content ← decodeStringField (lookupLast fs "content")
      pure ⟨role, content⟩
  | _ => none

/-- Unmarshal a JSON value into Choice. -/
def decodeChoice : Json → Option Choice
  | .null => some ⟨⟨"", ""⟩⟩
  | .obj fs =>
      match lookupLast fs "message" with
      | none => some ⟨⟨"", ""⟩⟩
      | some j => (decodeMessage j).map (fun m => ⟨m⟩)
  | _ => none

/-- Unmarshal the value of the choices field into a Go slice of Choice;
an absent or null field is the zero value (an empty slice). -/
def decodeChoiceList : Option Json → Option (List Choice)
  | none => some []
  | some .null => some []
  | some (.arr xs) => xs.mapM decodeChoice
  | some _ => none

/-- Unmarshal a body into ChatResponse, keeping only the choices list. -/
def decodeChatResponse : Json → Option (List Choice)
  | .null => some []
  | .obj fs => decodeChoiceList (lookupLast fs "choices")
  | _ => none

/-- Unmarshal a body into the anonymous error-response struct of
sendChat (slm-linux.go lines 197-199), returning the error.message
field; `none` is an unmarshal failure. -/
def decodeErrResp : Json → Option String
  | .null => some ""
  | .obj fs =>
      match lookupLast fs "error" with
      | none => some ""
      | some .null => some ""
      | some (.obj efs) => decodeStringField (lookupLast efs "message")
      | some _ => none
  | _ => none

/-- The Go condition of slm-linux.go line 200: the body unmarshals into
the error-response struct without error and the message is non-empty. -/
def hasApiError : Option Json → Bool
  | none => false
  | some j =>
      match decodeErrResp j with
      | none => false
      | some msg => msg != ""

/-- The failure conditions a send can produce. -/
inductive SlmErr where
  | transport
  | apiStatus (status : Nat) (body : Option Json)
  | apiMessage (msg : String)
  | decodeFailure
  | noChoices

/-- The shared tail of both send functions: unmarshal the body as a
ChatResponse, fail on a decode error or an empty choices list, and
return the content of the first choice (slm-linux.go lines 204-212,
slm.go lines 213-220). -/
def sendChatParse (body : Option Json) : Except SlmErr String :=
  match body.bind decodeChatResponse with
  | none => .error .decodeFailure
  | some [] => .error .noChoices
  | some (c :: _) => .ok c.message.content

/-- sendChat of slm-linux.go: transport failure, then the status check
(carrying status and body), then the embedded error.message check, then
the choice-list parse. -/
def sendChat (transportOk : Bool) (status : Nat) (body : Option Json) :
    Except SlmErr String :=
  if transportOk = false then .error .transport
  else if status ≠ 200 then .error (.apiStatus status body)
  else
    match body.bind decodeErrResp with
    | some msg => if msg ≠ "" then .error (.apiMessage msg) else sendChatParse body
    | none => sendChatParse body

/-- sendchat of slm.go: after the transport, the body is decoded
directly; the HTTP status is never inspected and there is no embedded
error check (slm.go lines 207-220). -/
def sendchat (transportOk : Bool) (_status : Nat) (body : Option Json) :
    Except SlmErr String :=
  if transportOk = false then .error .transport
  else sendChatParse body

/-- One attribute-value tuple of an ndb record. -/
abbrev NdbTuple := String × String

/-- One ndb record, in tuple order. -/
abbrev NdbRecord := List NdbTuple

/-- A parsed ndb database, in record (file) order. -/
abbrev Db := List NdbRecord

/-- Whether a record carries the given attribute. -/
def hasAttr (rec : NdbRecord) (attr : String) : Bool :=
  rec.any (fun t => t.1 == attr)

/-- Modelled from the spec: `db.Search(attr, "")` of the external ndb
library, which the spec describes as the history file being "linearly
re-scanned for the attributes role and content"; with an empty value the
search returns, in file order, every record carrying the attribute. -/
def search (db : Db) (attr : String) : Db :=
  db.filter (fun rec => hasAttr rec attr)

/-- The body of the tuple loop of loadHist (slm-linux.go lines 139-146)
and loadhist (slm.go lines 166-173): two independent assignments, so the
last-seen value of each attribute wins. -/
def scanTuple (rc : String × String) (t : NdbTuple) : String × String :=
  let rc1 := if t.1 = "role" then (t.2, rc.2) else rc
  if t.1 = "content" then (rc1.1, t.2) else rc1

/-- Scan one record for its role and content values. -/
def extractRC (rec : NdbRecord) : String × String :=
  rec.foldl scanTuple ("", "")

/-- The body of the record loop of loadHist and loadhist: keep a record
only when both extracted values are non-empty. -/
def loadStep (msgs : List Message) (rec : NdbRecord) : List Message :=
  let rc := extractRC rec
  if rc.1 ≠ "" ∧ rc.2 ≠ "" then msgs ++ [⟨rc.1, rc.2⟩] else msgs

/-- loadHist of slm-linux.go on an already-opened database: search for
records carrying role, then run the record loop (lines 135-151).  The
loop of loadhist in slm.go (lines 162-178) is textually identical. -/
def loadHist (db : Db) : List Message :=
  (search db "role").foldl loadStep []

/-- loadHist of slm-linux.go including the open step: an open or parse
failure returns nil (lines 131-134). -/
def loadHistFile : Option Db → List Message
  | none => []
  | some db => loadHist db

/-- Outcome of loadhist of slm.go: either a message list or a crash. -/
inductive Load9 where
  | ok (msgs : List Message)
  | crash
  deriving DecidableEq, Repr

/-- loadhist of slm.go including the open step: on an open or parse
failure, checkit (slm.go lines 76-80) wraps the error and discards it,
so execution continues and `db.Search` dereferences the nil database
handle — a runtime crash, modelled as `.crash`.  On success the loop is
the same as the Linux loadHist. -/
def loadhist9 : Option Db → Load9
  | none => .crash
  | some db => .ok (loadHist db)

/-- Modelled from the spec: the record-level content of the two lines
appendHist (slm-linux.go lines 161-162) and appendhist (slm.go lines
189-190) write, `message role=<q> content=<q>`; the leading bare word is
an attribute with empty value, and the spec states the attribute values
are "textually quoted so that embedded quote/newline characters are
escaped losslessly", so at the record level the stored values are the
original strings. -/
def appendRecords (userp reply : String) : Db :=
  [[("message", ""), ("role", "user"), ("content", userp)],
   [("message", ""), ("role", "assistant"), ("content", reply)]]

/-- Last-seen value of an attribute in a record, with a default. -/
def lastD (rec : NdbRecord) (attr : String) (d : String) : String :=
  rec.foldl (fun acc t => if t.1 = attr then t.2 else acc) d

/-- The message the spec assigns to one record: the last-seen role and
content values, the record skipped when either is missing or empty. -/
def specMsg (rec : NdbRecord) : Option Message :=
  let r := lastD rec "role" ""
  let c := lastD rec "content" ""
  if r ≠ "" ∧ c ≠ "" then some ⟨r, c⟩ else none

/-- The load result the spec describes: the kept records in file order. -/
def specLoad (db : Db) : List Message :=
  db.filterMap specMsg

/-- Constants of slm-linux.go. -/
def AppName : String := "slm"

/-- History file name of the Linux variant. -/
def HistFile : String := "history.ndb"

/-- Fixed API endpoint (identical in both variants). -/
def APIURL : String := "https://api.openai.com/v1/chat/completions"

/-- History directory sub-path of the 9front variant. -/
def HISTDIR : String := "lib/llm"

/-- History file name of the 9front variant. -/
def HISTFILE : String := "llm.history"

/-- histDir of slm-linux.go, below the resolved configuration dir. -/
def histDir (confDir : String) : String := confDir ++ "/" ++ AppName

/-- histPath of slm-linux.go. -/
def histPath (confDir : String) : String := histDir confDir ++ "/" ++ HistFile

/-- The directory ensurehistdir of slm.go creates. -/
def histdir9 (home : String) : String := home ++ "/" ++ HISTDIR

/-- histpath of slm.go. -/
def histpath9 (home : String) : String := histdir9 home ++ "/" ++ HISTFILE

/-- Options assembled by parseFlags of slm-linux.go (Go type Opts; the
Go field Continue is `cont` here). -/
structure Opts where
  model : String
  temp : Float
  sysPrompt : String
  userPrompt : String
  cont : Bool
  apiKey : String

/-- Options of the 9front variant, which adds the resolved home. -/
structure Opts9 where
  model : String
  temp : Float
  sysPrompt : String
  userPrompt : String
  cont : Bool
  apiKey : String
  home : String

/-- The already-parsed command line: flag values plus the positional
arguments (flag parsing itself is the Go standard library). -/
structure Flags where
  model : String
  temp : Float
  sysp : String
  cont : Bool
  positional : List String

/-- Result of reading standard input to end-of-stream; `err` carries the
data read before the failure, as ioutil.ReadAll returns both. -/
inductive StdinResult where
  | ok (s : String)
  | err (sofar : String)

/-- parseFlags of slm-linux.go (lines 80-111): the credential check
comes first and is fatal when the variable is empty or unset (an unset
variable reads as "" through os.Getenv); with no positional argument the
prompt is all of standard input, and a read failure is fatal. -/
def parseFlags (fl : Flags) (apikey : String) (stdin : StdinResult) :
    Except String Opts :=
  if apikey = "" then
    .error "[ERROR] OPENAI_API_KEY not set"
  else
    match fl.positional with
    | p :: _ => .ok ⟨fl.model, fl.temp, fl.sysp, p, fl.cont, apikey⟩
    | [] =>
      match stdin with
      | .ok data => .ok ⟨fl.model, fl.temp, fl.sysp, data, fl.cont, apikey⟩
      | .err _ => .error "[ERROR] prompt could not be read"

/-- parseflags of slm.go (lines 106-143).  The credential check is fatal
(logit calls log.Fatal).  The stdin branch reproduces the source as
written: the prompt is assigned only inside the error branch, so a
successful read leaves it empty, and on a failed read checkit discards
the error and the partially read data becomes the prompt, the run
continuing. -/
def parseflags (fl : Flags) (apikey : String) (stdin : StdinResult)
    (envHomeLower envHomeUpper : String) : Except String Opts9 :=
  if apikey = "" then
    .error "[ERROR]: OPENAI_API_KEY not set"
  else
    let userp : String :=
      match fl.positional with
      | p :: _ => p
      | [] =>
        match stdin with
        | .ok _ => ""
        | .err sofar => sofar
    let home := if envHomeLower = "" then envHomeUpper else envHomeLower
    .ok ⟨fl.model, fl.temp, fl.sysp, userp, fl.cont, apikey, home⟩

/-- The environment a run interacts with: whether MkdirAll succeeds, the
parse result of the history file (none = open or parse failure), the
transport outcome, the remote status and body, and whether opening the
history file for append succeeds. -/
structure World where
  mkdirOk : Bool
  hist : Option Db
  transportOk : Bool
  respStatus : Nat
  respBody : Option Json
  appendOk : Bool

/-- Observable effects of one run: exit status, stdout lines, the HTTP
request (none when no request was issued), the directory MkdirAll was
attempted on (none when never reached), whether the history file was
read, whether a history append was attempted, and whether the process
crashed with a runtime fault. -/
structure Outcome where
  exitZero : Bool
  stdout : List String
  request : Option ChatRequest
  mkdirPath : Option String
  histRead : Bool
  histWriteTried : Bool
  crashed : Bool

/-- main of slm-linux.go (lines 54-78): parse flags, ensure the history
directory (fatal on failure), optionally load history, assemble the
message list, send, print the reply, optionally append.  A failed append
open is fatal (appendHist line 157). -/
def mainLinux (confDir : String) (fl : Flags) (apikey : String)
    (stdin : StdinResult) (w : World) : Outcome :=
  match parseFlags fl apikey stdin with
  | .error _ => ⟨false, [], none, none, false, false, false⟩
  | .ok opts =>
    if w.mkdirOk = false then
      ⟨false, [], none, some (histDir confDir), false, false, false⟩
    else
      let histMsgs := if opts.cont then loadHistFile w.hist else []
      let msgs1 :=
        if opts.sysPrompt ≠ "" then histMsgs ++ [⟨"system", opts.sysPrompt⟩]
        else histMsgs
      let msgs := msgs1 ++ [⟨"user", opts.userPrompt⟩]
      let req : ChatRequest := ⟨opts.model, opts.temp, msgs⟩
      match sendChat w.transportOk w.respStatus w.respBody with
      | .error _ =>
        ⟨false, [], some req, some (histDir confDir), opts.cont, false, false⟩
      | .ok reply =>
        if opts.cont then
          if w.appendOk then
            ⟨true, [reply], some req, some (histDir confDir), true, true, false⟩
          else
            ⟨false, [reply], some req, some (histDir confDir), true, true, false⟩
        else
          ⟨true, [reply], some req, some (histDir confDir), false, false, false⟩

/-- main of slm.go (lines 82-104): as the Linux main, except that a
MkdirAll failure goes to checkit, which discards it, so the run
continues either way; and a missing or corrupt history file crashes
inside loadhist.  A failed append open is fatal (logit, line 185). -/
def main9 (fl : Flags) (apikey : String) (stdin : StdinResult)
    (envHomeLower envHomeUpper : String) (w : World) : Outcome :=
  match parseflags fl apikey stdin envHomeLower envHomeUpper with
  | .error _ => ⟨false, [], none, none, false, false, false⟩
  | .ok opts =>
    let dir := histdir9 opts.home
    match (if opts.cont then loadhist9 w.hist else Load9.ok []) with
    | .crash => ⟨false, [], none, some dir, true, false, true⟩
    | .ok histMsgs =>
      let msgs1 :=
        if opts.sysPrompt ≠ "" then histMsgs ++ [⟨"system", opts.sysPrompt⟩]
        else histMsgs
      let msgs := msgs1 ++ [⟨"user", opts.userPrompt⟩]
      let req : ChatRequest := ⟨opts.model, opts.temp, msgs⟩
      match sendchat w.transportOk w.respStatus w.respBody with
      | .error _ =>
        ⟨false, [], some req, some dir, opts.cont, false, false⟩
      | .ok reply =>
        if opts.cont then
          if w.appendOk then
            ⟨true, [reply], some req, some dir, true, true, false⟩
          else
            ⟨false, [reply], some req, some dir, true, true, false⟩
        else
          ⟨true, [reply], some req, some dir, false, false, false⟩

/-- The body of the spec example: one assistant choice saying hello. -/
def helloBody : Json :=
  .obj [("choices", .arr [.obj [("message",
    .obj [("role", .str "assistant"), ("content", .str "hello")])]])]

/-- The decoded choice of `helloBody`. -/
def helloChoice : Choice := ⟨⟨"assistant", "hello"⟩⟩

/-- A 200 body carrying both a non-empty choices list and an embedded
error.message. -/
def helloErrorBody : Json :=
  .obj [("choices", .arr [.obj [("message",
          .obj [("role", .str "assistant"), ("content", .str "hello")])]]),
        ("error", .obj [("message", .str "boom")])]

/-- The body of the HTTP-500 spec example. -/
def emptyErrorBody : Json := .obj [("error", .obj [])]

/-- A body with one assistant choice saying x. -/
def xChoiceBody : Json :=
  .obj [("choices", .arr [.obj [("message",
    .obj [("role", .str "assistant"), ("content", .str "x")])]])]

/-- A body with a non-empty error.message and no choices. -/
def boomBody : Json := .obj [("error", .obj [("message", .str "boom")])]

/-- A body with a non-empty error.message and also a choices list. -/
def boomWithChoiceBody : Json :=
  .obj [("error", .obj [("message", .str "boom")]),
        ("choices", .arr [.obj [("message",
          .obj [("role", .str "assistant"), ("content", .str "x")])]])]

/-- A command line with one positional prompt and continuation off. -/
def flPos : Flags := ⟨"gpt-3.5-turbo", 0.7, "", false, ["hi"]⟩

/-- A command line with no positional prompt and continuation off. -/
def flNoPos : Flags := ⟨"gpt-3.5-turbo", 0.7, "", false, []⟩

/-- A command line with one positional prompt and continuation on. -/
def flCont : Flags := ⟨"gpt-3.5-turbo", 0.7, "", true, ["hi"]⟩

/-- A benign world answering 200 with the hello body. -/
def wHello : World := ⟨true, some [], true, 200, some helloBody, true⟩

/-- A world with no readable history file. -/
def wNoHist : World := ⟨true, none, true, 200, some helloBody, true⟩

/-- A small sample database: a well-formed record, a record with a
repeated attribute, a record missing content, a record with an empty
role, and a record without a role attribute. -/
def dbSample : Db :=
  [[("message", ""), ("role", "user"), ("content", "a")],
   [("role", "user"), ("role", "assistant"), ("content", "b"), ("content", "c")],
   [("role", "user")],
   [("role", ""), ("content", "d")],
   [("content", "e")]]

/-- One tuple updates the role and content slots componentwise. -/
theorem scanTuple_eq (rc : String × String) (t : NdbTuple) :
    scanTuple rc t =
      ((if t.1 = "role" then t.2 else rc.1),
       (if t.1 = "content" then t.2 else rc.2)) := by
  by_cases h1 : t.1 = "role"
  · have h2 : ¬ t.1 = "content" := by rw [h1]; decide
    simp [scanTuple, h1, h2]
  · by_cases h2 : t.1 = "content" <;> simp [scanTuple, h1, h2]

/-- The tuple fold computes the last-seen role and content values. -/
theorem foldl_scanTuple (rec : NdbRecord) :
    ∀ rc : String × String,
      rec.foldl scanTuple rc = (lastD rec "role" rc.1, lastD rec "content" rc.2) := by
  induction rec with
  | nil => intro rc; rfl
  | cons t ts ih =>
    intro rc
    rw [List.foldl_cons, scanTuple_eq, ih]
    rfl

/-- Record scan as last-seen lookups. -/
theorem extractRC_eq (rec : NdbRecord) :
    extractRC rec = (lastD rec "role" "", lastD rec "content" "") :=
  foldl_scanTuple rec ("", "")

/-- One step of the record loop appends exactly the spec message. -/
theorem loadStep_spec (msgs : List Message) (rec : NdbRecord) :
    loadStep msgs rec = msgs ++ (specMsg rec).toList := by
  by_cases h : lastD rec "role" "" ≠ "" ∧ lastD rec "content" "" ≠ "" <;>
    simp [loadStep, specMsg, extractRC_eq, h]

/-- The record loop is a filterMap with the spec message function. -/
theorem foldl_loadStep (recs : Db) :
    ∀ acc : List Message, recs.foldl loadStep acc = acc ++ specLoad recs := by
  induction recs with
  | nil => intro acc; simp [specLoad]
  | cons r rs ih =>
    intro acc
    rw [List.foldl_cons, loadStep_spec, ih]
    cases h : specMsg r <;> simp [specLoad, List.filterMap_cons, h]

/-- A record without the attribute keeps the default. -/
theorem lastD_of_hasAttr_false (attr : String) (rec : NdbRecord) :
    ∀ d : String, hasAttr rec attr = false → lastD rec attr d = d := by
  induction rec with
  | nil => intro d _; rfl
  | cons t ts ih =>
    intro d h
    simp only [hasAttr, List.any_cons, Bool.or_eq_false_iff,
      beq_eq_false_iff_ne, ne_eq] at h
    show lastD ts attr (if t.1 = attr then t.2 else d) = d
    rw [if_neg h.1]
    exact ih d h.2

/-- A record without a role attribute yields no spec message. -/
theorem specMsg_of_no_role (rec : NdbRecord) (h : hasAttr rec "role" = false) :
    specMsg rec = none := by
  have hr : lastD rec "role" "" = "" := lastD_of_hasAttr_false "role" rec "" h
  simp [specMsg, hr]

/-- Restricting to records carrying a role attribute loses nothing. -/
theorem specLoad_search (db : Db) : specLoad (search db "role") = specLoad db := by
  induction db with
  | nil => rfl
  | cons r rs ih =>
    cases h : hasAttr r "role" with
    | false =>
      have hn := specMsg_of_no_role r h
      simp only [search, List.filter_cons, h, if_neg, Bool.false_eq_true,
        not_false_iff, ite_false]
      show specLoad (search rs "role") = specLoad (r :: rs)
      rw [ih]
      simp [specLoad, List.filterMap_cons, hn]
    | true =>
      simp only [search, List.filter_cons, h, ite_true]
      show specLoad (r :: search rs "role") = specLoad (r :: rs)
      simp only [specLoad] at ih
      cases hm : specMsg r <;>
        simp only [specLoad, List.filterMap_cons, hm] <;> rw [ih]

/-- The scanning loop of the sources computes exactly the load result
described by the spec sentence of C4. -/
theorem loadHist_eq_specLoad (db : Db) : loadHist db = specLoad db := by
  unfold loadHist
  rw [foldl_loadStep]
  simpa using specLoad_search db

/-- Appending the two records of one (prompt, reply) pair and loading
yields the two messages at the end, for non-empty prompt and reply. -/
theorem loadHist_append_records (db : Db) (u r : String)
    (hu : u ≠ "") (hr : r ≠ "") :
    loadHist (db ++ appendRecords u r) =
      loadHist db ++ [⟨"user", u⟩, ⟨"assistant", r⟩] := by
  rw [loadHist_eq_specLoad, loadHist_eq_specLoad]
  unfold specLoad
  rw [List.filterMap_append]
  congr 1
  simp [appendRecords, List.filterMap_cons, specMsg, lastD, hu, hr]

/-- When the embedded error check does not fire, sendChat returns the
content of the first decoded choice. -/
theorem sendChat_ok (body : Json) (c : Choice) (rest : List Choice)
    (hdec : decodeChatResponse body = some (c :: rest))
    (herr : hasApiError (some body) = false) :
    sendChat true 200 (some body) = .ok c.message.content := by
  cases hm : decodeErrResp body with
  | none => simp [sendChat, Option.bind, hm, sendChatParse, hdec]
  | some msg =>
    have hmsg : msg = "" := by simpa [hasApiError, hm] using herr
    simp [sendChat, Option.bind, hm, hmsg, sendChatParse, hdec]

/-- The 9front sendchat returns the first decoded choice whenever the
body decodes to a non-empty list, whatever the status was. -/
theorem sendchat_ok (status : Nat) (body : Json) (c : Choice) (rest : List Choice)
    (hdec : decodeChatResponse body = some (c :: rest)) :
    sendchat true status (some body) = .ok c.message.content := by
  simp [sendchat, sendChatParse, Option.bind, hdec]

/-- With a non-empty credential and readable stdin, parseFlags of the
Linux variant succeeds and resolves the prompt. -/
theorem parseFlags_ok_stdin (fl : Flags) (key s : String) (hk : key ≠ "") :
    parseFlags fl key (.ok s) =
      .ok ⟨fl.model, fl.temp, fl.sysp,
           (match fl.positional with | p :: _ => p | [] => s), fl.cont, key⟩ := by
  unfold parseFlags
  rw [if_neg hk]
  cases fl.positional <;> rfl

/-- A successful parseFlags copies the continue flag. -/
theorem parseFlags_cont (fl : Flags) (key : String) (stdin : StdinResult)
    (opts : Opts) (hpf : parseFlags fl key stdin = .ok opts) :
    opts.cont = fl.cont := by
  unfold parseFlags at hpf
  by_cases hk : key = ""
  · rw [if_pos hk] at hpf; exact absurd hpf (by simp)
  · rw [if_neg hk] at hpf
    cases hp : fl.positional with
    | cons p ps => rw [hp] at hpf; cases hpf; rfl
    | nil =>
      rw [hp] at hpf
      cases stdin with
      | ok s => cases hpf; rfl
      | err sofar => exact absurd hpf (by simp)

/-- With a non-empty credential, parseflags of the 9front variant always
succeeds, with the prompt resolved as the source writes it. -/
theorem parseflags_ok (fl : Flags) (key : String) (stdin : StdinResult)
    (hl hu : String) (hk : key ≠ "") :
    parseflags fl key stdin hl hu =
      .ok ⟨fl.model, fl.temp, fl.sysp,
           (match fl.positional with
            | p :: _ => p
            | [] => match stdin with | .ok _ => "" | .err sofar => sofar),
           fl.cont, key, (if hl = "" then hu else hl)⟩ := by
  unfold parseflags
  rw [if_neg hk]

/-- A successful parseflags copies the continue flag. -/
theorem parseflags_cont (fl : Flags) (key : String) (stdin : StdinResult)
    (hl hu : String) (opts9 : Opts9)
    (hpf : parseflags fl key stdin hl hu = .ok opts9) :
    opts9.cont = fl.cont := by
  unfold parseflags at hpf
  by_cases hk : key = ""
  · rw [if_pos hk] at hpf; exact absurd hpf (by simp)
  · rw [if_neg hk] at hpf; cases hpf; rfl

/-- With continuation off, the Linux main neither reads nor writes the
history file, on every outcome of the remote call. -/
theorem mainLinux_contOff (confDir : String) (fl : Flags) (key : String)
    (stdin : StdinResult) (w : World) (h : fl.cont = false) :
    (mainLinux confDir fl key stdin w).histRead = false ∧
    (mainLinux confDir fl key stdin w).histWriteTried = false := by
  unfold mainLinux
  cases hpf : parseFlags fl key stdin with
  | error e => exact ⟨rfl, rfl⟩
  | ok opts =>
    have hc : opts.cont = false := (parseFlags_cont fl key stdin opts hpf).trans h
    cases hw : w.mkdirOk with
    | false => simp
    | true =>
      simp only [hw]
      cases hs : sendChat w.transportOk w.respStatus w.respBody <;> simp [hc]

/-- With continuation off, the 9front main neither reads nor writes the
history file, on every outcome of the remote call. -/
theorem main9_contOff (fl : Flags) (key : String) (stdin : StdinResult)
    (hl hu : String) (w : World) (h : fl.cont = false) :
    (main9 fl key stdin hl hu w).histRead = false ∧
    (main9 fl key stdin hl hu w).histWriteTried = false := by
  unfold main9
  cases hpf : parseflags fl key stdin hl hu with
  | error e => exact ⟨rfl, rfl⟩
  | ok opts =>
    have hc : opts.cont = false :=
      (parseflags_cont fl key stdin hl hu opts hpf).trans h
    cases hs : sendchat w.transportOk w.respStatus w.respBody <;> simp [hc]

/-- On a benign run with a 200 response decoding to a non-empty choices
list and no embedded error, the Linux main prints the first choice
content and exits zero. -/
theorem mainLinux_prints (confDir : String) (fl : Flags) (key s : String)
    (w : World) (body : Json) (c : Choice) (rest : List Choice)
    (hk : key ≠ "") (hm : w.mkdirOk = true) (ha : w.appendOk = true)
    (ht : w.transportOk = true) (hs : w.respStatus = 200)
    (hb : w.respBody = some body)
    (hdec : decodeChatResponse body = some (c :: rest))
    (herr : hasApiError (some body) = false) :
    (mainLinux confDir fl key (.ok s) w).stdout = [c.message.content] ∧
    (mainLinux confDir fl key (.ok s) w).exitZero = true := by
  have hsend := sendChat_ok body c rest hdec herr
  unfold mainLinux
  rw [parseFlags_ok_stdin fl key s hk]
  simp only [hm, ht, hs, hb, hsend]
  cases hc : fl.cont <;> simp [ha, hc]

/-- On a benign run with a body decoding to a non-empty choices list,
the 9front main prints the first choice content and exits zero provided
the history file is readable when continuation is on. -/
theorem main9_prints (fl : Flags) (key s hl hu : String) (w : World)
    (body : Json) (c : Choice) (rest : List Choice)
    (hk : key ≠ "") (ha : w.appendOk = true) (ht : w.transportOk = true)
    (hb : w.respBody = some body)
    (hdec : decodeChatResponse body = some (c :: rest))
    (hhist : fl.cont = true → w.hist.isSome = true) :
    (main9 fl key (.ok s) hl hu w).stdout = [c.message.content] ∧
    (main9 fl key (.ok s) hl hu w).exitZero = true := by
  have hsend := sendchat_ok w.respStatus body c rest hdec
  unfold main9
  rw [parseflags_ok fl key (.ok s) hl hu hk]
  cases hc : fl.cont with
  | false => simp [ht, hb, hsend, hc]
  | true =>
    obtain ⟨db, hdb⟩ := Option.isSome_iff_exists.mp (hhist hc)
    simp [hdb, ht, hb, hsend, hc, ha, loadhist9]

/-- Once parseFlags succeeds, the Linux main records the MkdirAll
attempt on the resolved directory, whatever happens afterwards. -/
theorem mainLinux_mkdir (confDir : String) (fl : Flags) (key : String)
    (stdin : StdinResult) (w : World) (opts : Opts)
    (hpf : parseFlags fl key stdin = .ok opts) :
    (mainLinux confDir fl key stdin w).mkdirPath = some (histDir confDir) := by
  unfold mainLinux
  rw [hpf]
  cases hw : w.mkdirOk with
  | false => rfl
  | true =>
    simp only [hw]
    cases hs : sendChat w.transportOk w.respStatus w.respBody with
    | error e => simp
    | ok reply =>
      cases hc : opts.cont <;> cases hap : w.appendOk <;> simp [hc, hap]

/-- With a non-empty credential, the 9front main records the MkdirAll
attempt on the resolved directory, whatever happens afterwards. -/
theorem main9_mkdir (fl : Flags) (key : String) (stdin : StdinResult)
    (hl hu : String) (w : World) (hk : key ≠ "") :
    (main9 fl key stdin hl hu w).mkdirPath =
      some (histdir9 (if hl = "" then hu else hl)) := by
  unfold main9
  rw [parseflags_ok fl key stdin hl hu hk]
  cases hc : fl.cont with
  | false =>
    cases hs : sendchat w.transportOk w.respStatus w.respBody <;>
      simp [hc, hs]
  | true =>
    cases hh : w.hist with
    | none => simp [hc, loadhist9]
    | some db =>
      cases hs : sendchat w.transportOk w.respStatus w.respBody <;>
        cases hap : w.appendOk <;> simp [hc, hh, loadhist9, hs, hap]

/-- Claim C1: when the credential environment variable is unset or empty
(os.Getenv then reads ""), both variants terminate with a non-zero exit
from the flag-parsing step: nothing is printed, no HTTP request is
issued, no directory is created and the history file is never touched,
for every command line, stdin outcome and environment. -/
theorem keyMissing_noRequest (confDir : String) (fl : Flags)
    (stdin : StdinResult) (hl hu : String) (w : World) :
    mainLinux confDir fl "" stdin w =
      ⟨false, [], none, none, false, false, false⟩ ∧
    main9 fl "" stdin hl hu w =
      ⟨false, [], none, none, false, false, false⟩ :=
  ⟨rfl, rfl⟩

/-- Claim C1 witness: a concrete run with the credential empty. -/
theorem keyMissing_noRequest_witness :
    mainLinux "/cfg" flPos "" (.ok "") wHello =
      ⟨false, [], none, none, false, false, false⟩ ∧
    main9 flPos "" (.ok "") "" "/h" wHello =
      ⟨false, [], none, none, false, false, false⟩ :=
  keyMissing_noRequest "/cfg" flPos (.ok "") "" "/h" wHello

/-- Claim C2 counterexample: a 200 body whose choices list is non-empty
but which also carries a non-empty error.message; the Linux sendChat
fails with the embedded message instead of returning the first choice
content, so the claim as stated is false. -/
theorem sendOk_embeddedError_cex :
    decodeChatResponse helloErrorBody = some [helloChoice] ∧
    sendChat true 200 (some helloErrorBody) = .error (.apiMessage "boom") :=
  ⟨by decide, rfl⟩

/-- Claim C2 (amended): for a 200 response whose body decodes to a
non-empty choices list and, as the Linux variant additionally requires,
carries no non-empty error.message field, both send functions return the
content of the first choice, and on a benign run (working transport and
filesystem, readable history when continuation is on) both programs
print exactly that content and exit zero. -/
theorem sendOk_prints (confDir : String) (fl : Flags) (key s hl hu : String)
    (w : World) (body : Json) (c : Choice) (rest : List Choice)
    (hk : key ≠ "") (hm : w.mkdirOk = true) (ha : w.appendOk = true)
    (ht : w.transportOk = true) (hs : w.respStatus = 200)
    (hb : w.respBody = some body)
    (hdec : decodeChatResponse body = some (c :: rest))
    (herr : hasApiError (some body) = false)
    (hhist : fl.cont = true → w.hist.isSome = true) :
    sendChat true 200 (some body) = .ok c.message.content ∧
    sendchat true 200 (some body) = .ok c.message.content ∧
    (mainLinux confDir fl key (.ok s) w).stdout = [c.message.content] ∧
    (mainLinux confDir fl key (.ok s) w).exitZero = true ∧
    (main9 fl key (.ok s) hl hu w).stdout = [c.message.content] ∧
    (main9 fl key (.ok s) hl hu w).exitZero = true := by
  obtain ⟨hL1, hL2⟩ :=
    mainLinux_prints confDir fl key s w body c rest hk hm ha ht hs hb hdec herr
  obtain ⟨h91, h92⟩ :=
    main9_prints fl key s hl hu w body c rest hk ha ht hb hdec hhist
  exact ⟨sendChat_ok body c rest hdec herr, sendchat_ok 200 body c rest hdec,
    hL1, hL2, h91, h92⟩

/-- Claim C2 witness: the spec example body prints exactly hello. -/
theorem sendOk_prints_witness :
    sendChat true 200 (some helloBody) = .ok "hello" ∧
    sendchat true 200 (some helloBody) = .ok "hello" ∧
    (mainLinux "/cfg" flPos "k" (.ok "") wHello).stdout = ["hello"] ∧
    (mainLinux "/cfg" flPos "k" (.ok "") wHello).exitZero = true ∧
    (main9 flPos "k" (.ok "") "" "/h" wHello).stdout = ["hello"] ∧
    (main9 flPos "k" (.ok "") "" "/h" wHello).exitZero = true :=
  sendOk_prints "/cfg" flPos "k" "" "" "/h" wHello helloBody helloChoice []
    (by decide) rfl rfl rfl rfl rfl (by decide) (by decide) (by decide)

/-- Claim C3 counterexample: on HTTP 500 the 9front sendchat, which
never inspects the status, still returns the first choice of the body
instead of failing with an API-error condition carrying the status. -/
theorem status_ignored_9front_cex :
    sendchat true 500 (some xChoiceBody) = .ok "x" ∧
    sendChat true 500 (some xChoiceBody) =
      .error (.apiStatus 500 (some xChoiceBody)) :=
  ⟨rfl, rfl⟩

/-- Claim C3 (amended): for every non-OK status the Linux sendChat fails
with an API-error carrying the status code and the body, without
consulting the choice list; the 9front sendchat ignores the HTTP status
entirely and decodes the body regardless, so on HTTP 500 with body
containing only an empty error object it exits non-zero through the
no-choices condition, not with the status code. -/
theorem nonOkStatus_linux (status : Nat) (body : Option Json)
    (h : status ≠ 200) :
    sendChat true status body = .error (.apiStatus status body) ∧
    (∀ s2 : Nat, sendchat true status body = sendchat true s2 body) ∧
    sendchat true 500 (some emptyErrorBody) = .error .noChoices := by
  refine ⟨?_, fun s2 => rfl, rfl⟩
  simp [sendChat, h]

/-- Claim C3 witness: the spec example, HTTP 500 with an empty error
object. -/
theorem nonOkStatus_linux_witness :
    sendChat true 500 (some emptyErrorBody) =
      .error (.apiStatus 500 (some emptyErrorBody)) ∧
    (∀ s2 : Nat, sendchat true 500 (some emptyErrorBody) =
      sendchat true s2 (some emptyErrorBody)) ∧
    sendchat true 500 (some emptyErrorBody) = .error .noChoices :=
  nonOkStatus_linux 500 (some emptyErrorBody) (by decide)

/-- Claim C4: on a parsed history database, the scanning loop shared by
loadHist and loadhist returns exactly the messages of the records whose
last-seen role and content values are both non-empty, in file order;
records missing either attribute or carrying an empty value are
silently skipped. -/
theorem loadHist_filters (db : Db) : loadHist db = specLoad db :=
  loadHist_eq_specLoad db

/-- Claim C4 witness: the sample database keeps the well-formed record,
takes the last-seen values of the repeated attributes, and drops the
records missing role or content or carrying empty values. -/
theorem loadHist_filters_witness : loadHist dbSample = specLoad dbSample :=
  loadHist_filters dbSample

/-- Claim C5, evaluated at the failing input: on an unreadable or
unparseable history file the Linux loadHist returns the empty list and
the run continues to a normal exit, but the 9front loadhist crashes
(checkit discards the open error and the nil database handle is then
dereferenced), so for the 9front variant the claim fails on the code. -/
theorem loadhist_openFailure_eval :
    loadHistFile none = [] ∧
    (mainLinux "/cfg" flCont "k" (.ok "") wNoHist).crashed = false ∧
    (mainLinux "/cfg" flCont "k" (.ok "") wNoHist).exitZero = true ∧
    (mainLinux "/cfg" flCont "k" (.ok "") wNoHist).stdout = ["hello"] ∧
    loadhist9 none = Load9.crash ∧
    (main9 flCont "k" (.ok "") "" "/h" wNoHist).crashed = true :=
  ⟨rfl, rfl, rfl, rfl, rfl, rfl⟩

/-- Claim C6 counterexample: appending the pair ("", "x") and loading
yields a single message — the user record is written with empty content
and then silently skipped by the load loop — so the two appended
messages are not the last two entries of the result. -/
theorem roundtrip_empty_cex :
    loadHist ([] ++ appendRecords "" "x") = [⟨"assistant", "x"⟩] ∧
    [(⟨"assistant", "x"⟩ : Message)] ≠
      loadHist [] ++ [⟨"user", ""⟩, ⟨"assistant", "x"⟩] :=
  ⟨by decide, by decide⟩

/-- Claim C6 (amended): for every pair of non-empty prompt and reply
strings, appending the two records and loading the same file yields
exactly those two messages as the last two entries, with roles user then
assistant and the original contents (the textual quoting layer being
lossless as the spec states). -/
theorem roundtrip_nonempty (db : Db) (u r : String)
    (hu : u ≠ "") (hr : r ≠ "") :
    loadHist (db ++ appendRecords u r) =
      loadHist db ++ [⟨"user", u⟩, ⟨"assistant", r⟩] :=
  loadHist_append_records db u r hu hr

/-- Claim C6 witness: a concrete non-empty pair round-trips. -/
theorem roundtrip_nonempty_witness :
    loadHist (dbSample ++ appendRecords "a" "b") =
      loadHist dbSample ++ [⟨"user", "a"⟩, ⟨"assistant", "b"⟩] :=
  roundtrip_nonempty dbSample "a" "b" (by decide) (by decide)

/-- Claim C7, evaluated at the failing inputs: the Linux parseFlags
resolves the prompt to the full stdin contents and is fatal on a read
failure, as the claim states; the 9front parseflags assigns the prompt
only inside the error branch, so a successful read leaves the prompt
empty and a failed read continues with the partial data — for the
9front variant the claim fails on the code (and the run proceeds to
issue a request with the wrong prompt). -/
theorem stdin_resolution_eval :
    parseFlags flNoPos "k" (.ok "hello") =
      .ok ⟨"gpt-3.5-turbo", 0.7, "", "hello", false, "k"⟩ ∧
    parseFlags flNoPos "k" (.err "par") =
      .error "[ERROR] prompt could not be read" ∧
    (mainLinux "/cfg" flNoPos "k" (.err "par") wHello).exitZero = false ∧
    (mainLinux "/cfg" flNoPos "k" (.err "par") wHello).request = none ∧
    parseflags flNoPos "k" (.ok "hello") "" "/h" =
      .ok ⟨"gpt-3.5-turbo", 0.7, "", "", false, "k", "/h"⟩ ∧
    parseflags flNoPos "k" (.err "par") "" "/h" =
      .ok ⟨"gpt-3.5-turbo", 0.7, "", "par", false, "k", "/h"⟩ ∧
    (main9 flNoPos "k" (.err "par") "" "/h" wHello).exitZero = true :=
  ⟨rfl, rfl, rfl, rfl, rfl, rfl, rfl⟩

/-- Claim C8 counterexample: a 200 body with a non-empty error.message
and a choices list; the 9front sendchat has no embedded-error check and
returns the reply instead of failing with the message. -/
theorem embeddedError_ignored_9front_cex :
    decodeErrResp boomWithChoiceBody = some "boom" ∧
    sendchat true 200 (some boomWithChoiceBody) = .ok "x" :=
  ⟨rfl, rfl⟩

/-- Claim C8 (amended): in the Linux variant only, a 200 body that
unmarshals with a non-empty error.message field makes sendChat fail
with an API-error carrying that message instead of returning a reply;
the 9front variant has no such check. -/
theorem embeddedError_linux (j : Json) (msg : String)
    (hm : decodeErrResp j = some msg) (hne : msg ≠ "") :
    sendChat true 200 (some j) = .error (.apiMessage msg) := by
  simp [sendChat, Option.bind, hm, hne]

/-- Claim C8 witness: the boom body fails with the embedded message on a
nominally successful status. -/
theorem embeddedError_linux_witness :
    sendChat true 200 (some boomBody) = .error (.apiMessage "boom") :=
  embeddedError_linux boomBody "boom" rfl (by decide)

/-- Claim C9: with the continue flag disabled, neither variant reads or
writes the history file, whatever the remote call does. -/
theorem contOff_noHistoryIO (confDir : String) (fl : Flags) (key : String)
    (stdin : StdinResult) (hl hu : String) (w : World)
    (h : fl.cont = false) :
    (mainLinux confDir fl key stdin w).histRead = false ∧
    (mainLinux confDir fl key stdin w).histWriteTried = false ∧
    (main9 fl key stdin hl hu w).histRead = false ∧
    (main9 fl key stdin hl hu w).histWriteTried = false := by
  obtain ⟨h1, h2⟩ := mainLinux_contOff confDir fl key stdin w h
  obtain ⟨h3, h4⟩ := main9_contOff fl key stdin hl hu w h
  exact ⟨h1, h2, h3, h4⟩

/-- Claim C9 witness: a concrete run without the continue flag. -/
theorem contOff_noHistoryIO_witness :
    (mainLinux "/cfg" flPos "k" (.ok "") wHello).histRead = false ∧
    (mainLinux "/cfg" flPos "k" (.ok "") wHello).histWriteTried = false ∧
    (main9 flPos "k" (.ok "") "" "/h" wHello).histRead = false ∧
    (main9 flPos "k" (.ok "") "" "/h" wHello).histWriteTried = false :=
  contOff_noHistoryIO "/cfg" flPos "k" (.ok "") "" "/h" wHello rfl

/-- Claim C10 counterexample: with the credential present but no
positional argument and a failing stdin read, the Linux variant exits
inside parseFlags, before MkdirAll is ever attempted — so passing
credential resolution alone does not guarantee the directory attempt. -/
theorem mkdir_skipped_cex :
    ("k" : String) ≠ "" ∧
    (mainLinux "/cfg" flNoPos "k" (.err "oops") wHello).mkdirPath = none :=
  ⟨by decide, rfl⟩

/-- Claim C10 (amended): on every invocation on which flag parsing
completes (credential present and prompt resolution succeeded), both
variants attempt to create the history directory at the resolved path
before any history or network work, including runs with the continue
flag disabled; for the 9front variant a non-empty credential suffices
since its parseflags never fails afterwards. -/
theorem mkdir_after_parse (confDir : String) (fl : Flags) (key : String)
    (stdin : StdinResult) (hl hu : String) (w : World) :
    (∀ opts : Opts, parseFlags fl key stdin = .ok opts →
      (mainLinux confDir fl key stdin w).mkdirPath = some (histDir confDir)) ∧
    (key ≠ "" →
      (main9 fl key stdin hl hu w).mkdirPath =
        some (histdir9 (if hl = "" then hu else hl))) :=
  ⟨fun opts hpf => mainLinux_mkdir confDir fl key stdin w opts hpf,
   fun hk => main9_mkdir fl key stdin hl hu w hk⟩

/-- Claim C10 witness: a benign run without the continue flag attempts
MkdirAll on the resolved directory in both variants. -/
theorem mkdir_after_parse_witness :
    (mainLinux "/cfg" flPos "k" (.ok "") wHello).mkdirPath =
      some (histDir "/cfg") ∧
    (main9 flPos "k" (.ok "") "" "/h" wHello).mkdirPath =
      some (histdir9 (if ("" : String) = "" then "/h" else "")) :=
  ⟨(mkdir_after_parse "/cfg" flPos "k" (.ok "") "" "/h" wHello).1
      ⟨"gpt-3.5-turbo", 0.7, "", "hi", false, "k"⟩ rfl,
   (mkdir_after_parse "/cfg" flPos "k" (.ok "") "" "/h" wHello).2 (by decide)⟩

end Slm
